import Mathlib

/-!
Shallow embedding of
`goat_gps_tracking_no_imu_raw_cmd_power_sensor_v2/MotorControl.{h,cpp}`.

C `double` values are modelled as rationals (`ℚ`), C `long` / `int` values as
unbounded integers (`ℤ`), and the unsigned narrowing conversions that the code
performs (`uint16_t`, `uint8_t`, the `uint32_t` arithmetic of
`ledcAnalogWrite`) are modelled explicitly by reduction modulo the
corresponding power of two, because those are the points where wrap-around can
actually change the value.  The hardware call `ledcWrite(channel, duty)` is
modelled by recording the pair `(channel, duty)` in the list of writes an
`update` call performs, in program order.
-/

namespace Arduino

/-- C conversion of a `double` (modelled as `ℚ`) to `long`: the fractional
part is discarded, i.e. the value is rounded toward zero. -/
def castLong (q : ℚ) : ℤ := if 0 ≤ q then ⌊q⌋ else ⌈q⌉

/-- Arduino `map(x, in_min, in_max, out_min, out_max)` on `long` arguments:
`(x - in_min) * (out_max - out_min) / (in_max - in_min) + out_min`, where `/`
is C `long` division, which truncates toward zero (`Int.tdiv`). -/
def map (x inMin inMax outMin outMax : ℤ) : ℤ :=
  ((x - inMin) * (outMax - outMin)).tdiv (inMax - inMin) + outMin

/-- C conversion of a signed integer value to `uint16_t`: reduction modulo
`2 ^ 16`. -/
def toUInt16 (z : ℤ) : ℕ := (z % 65536).toNat

/-- C conversion of a signed integer value to `uint8_t`: reduction modulo
`2 ^ 8`. -/
def toUInt8 (z : ℤ) : ℕ := (z % 256).toNat

end Arduino

/-- The `MotorControl` object: the three `const int` PWM channel identifiers
fixed at construction (`MotorControl.h`, lines 11-13). -/
structure MotorControl where
  PWM_LEFT_CHANNEL : ℤ
  PWM_RIGHT_CHANNEL : ℤ
  WINCH_CHANNEL : ℤ

namespace MotorControl

/-- `const int SERVO_MIN = 500` (`MotorControl.h`). -/
def SERVO_MIN : ℤ := 500

/-- `const int SERVO_MAX = 2500` (`MotorControl.h`). -/
def SERVO_MAX : ℤ := 2500

/-- `const int PWM_BASE_FREQ = 333` (`MotorControl.h`). -/
def PWM_BASE_FREQ : ℤ := 333

/-- `MotorControl::MotorControl(leftChannelFront, rightChannelFront,
leftChannelBack, rightChannelBack, winchChannel)`: the initializer list stores
`leftChannelFront` in `PWM_LEFT_CHANNEL`, `rightChannelBack` in
`PWM_RIGHT_CHANNEL` and `winchChannel` in `WINCH_CHANNEL`; the two remaining
arguments are not used. -/
def construct (leftChannelFront rightChannelFront leftChannelBack
    rightChannelBack winchChannel : ℤ) : MotorControl :=
  ⟨leftChannelFront, rightChannelBack, winchChannel⟩

/-- The `long` value of the `double` expression `1e6 / PWM_BASE_FREQ` used as
the upper input bound of the duty-cycle `map` call. -/
def periodUs : ℤ := Arduino.castLong (1000000 / (PWM_BASE_FREQ : ℚ))

/-- Lines 29-31 / 50-51: `map(command * 1000, -1000, 1000, SERVO_MIN,
SERVO_MAX)`, the `double` argument being converted to `long` first. -/
def pulseWidthOf (command : ℚ) : ℤ :=
  Arduino.map (Arduino.castLong (command * 1000)) (-1000) 1000 SERVO_MIN SERVO_MAX

/-- The `long` result of `map(pulsewidth, 0, 1e6 / PWM_BASE_FREQ, 0, 4095)`
(lines 33-35 / 53-54), before the narrowing assignment to `uint16_t`. -/
def dutyMap (pulsewidth : ℤ) : ℤ := Arduino.map pulsewidth 0 periodUs 0 4095

/-- `uint16_t fooMotorDutyCycle = map(fooMotorPulsewidth, 0,
1e6 / PWM_BASE_FREQ, 0, 4095)`: the `map` result narrowed to `uint16_t`. -/
def dutyCycleOf (pulsewidth : ℤ) : ℕ := Arduino.toUInt16 (dutyMap pulsewidth)

/-- `MotorControl::ledcAnalogWrite(channel, value, valueMax)` duty
computation: `uint32_t duty = (4095 / valueMax) * min(value, valueMax)`, in
`uint32_t` arithmetic (all quantities stay far below `2 ^ 32`, so plain `ℕ`
arithmetic is exact). -/
def ledcAnalogWrite (value valueMax : ℕ) : ℕ := 4095 / valueMax * min value valueMax

/-- The duty value actually handed to `ledcWrite` for one channel, given the
(already mixed and normalized) command of that channel: pulse-width mapping,
duty-cycle mapping with `uint16_t` narrowing, then `ledcAnalogWrite` with
`valueMax = 4095`. -/
def dutyOut (command : ℚ) : ℕ := ledcAnalogWrite (dutyCycleOf (pulseWidthOf command)) 4095

/-- Line 24: `maxValue = max(max(abs(left), abs(right)), 1.0)`. -/
def maxValue (leftWheelCommand rightWheelCommand : ℚ) : ℚ :=
  max (max |leftWheelCommand| |rightWheelCommand|) 1

/-- `MotorControl::update(forward, steering, winch)` (lines 20-40): the list
of `(channel, duty)` pairs passed to `ledcWrite`, in program order.  The wheel
commands are mixed, normalized by `maxValue`, and sent through the pulse-width
and duty-cycle pipeline; the winch command goes through the same pipeline
without normalization. -/
def update (mc : MotorControl) (forwardVelocityCommand steeringVelocityCommand
    winchCommand : ℚ) : List (ℕ × ℕ) :=
  let leftWheelCommand := forwardVelocityCommand + steeringVelocityCommand
  let rightWheelCommand := forwardVelocityCommand - steeringVelocityCommand
  [ (Arduino.toUInt8 mc.PWM_LEFT_CHANNEL,
      dutyOut (leftWheelCommand / maxValue leftWheelCommand rightWheelCommand)),
    (Arduino.toUInt8 mc.PWM_RIGHT_CHANNEL,
      dutyOut (rightWheelCommand / maxValue leftWheelCommand rightWheelCommand)),
    (Arduino.toUInt8 mc.WINCH_CHANNEL, dutyOut winchCommand) ]

/-- `MotorControl::updateRightLeft(left, right)` (lines 42-58): the two wheel
commands are sent through the pulse-width and duty-cycle pipeline directly
(the normalization block is commented out in the source); only the left and
right drive channels are written. -/
def updateRightLeft (mc : MotorControl) (leftWheelCommand rightWheelCommand : ℚ) :
    List (ℕ × ℕ) :=
  [ (Arduino.toUInt8 mc.PWM_LEFT_CHANNEL, dutyOut leftWheelCommand),
    (Arduino.toUInt8 mc.PWM_RIGHT_CHANNEL, dutyOut rightWheelCommand) ]

/-- Clamping a duty value into `[0, 4095]`, following the spec wording
"clamp each resulting duty cycle to `[0, 4095]`"; used to compare the code
against the spec. -/
def specClamp (z : ℤ) : ℕ := (min (max z 0) 4095).toNat

/-- The duty component of the `i`-th `ledcWrite` call of a write trace. -/
def writtenDuty (writes : List (ℕ × ℕ)) (i : ℕ) : Option ℕ :=
  (writes[i]?).map Prod.snd

theorem castLong_intCast (z : ℤ) : Arduino.castLong (z : ℚ) = z := by
  unfold Arduino.castLong
  split <;> simp

theorem castLong_mono {a b : ℚ} (h : a ≤ b) :
    Arduino.castLong a ≤ Arduino.castLong b := by
  unfold Arduino.castLong
  rcases le_or_lt 0 a with ha | ha
  · rw [if_pos ha, if_pos (le_trans ha h)]
    exact Int.floor_le_floor h
  · rw [if_neg (not_le.mpr ha)]
    rcases le_or_lt 0 b with hb | hb
    · rw [if_pos hb]
      refine le_trans (Int.ceil_le.mpr ?_) (Int.floor_nonneg.mpr hb)
      exact_mod_cast ha.le
    · rw [if_neg (not_le.mpr hb)]
      exact Int.ceil_le_ceil h

theorem periodUs_eq : periodUs = 3003 := by
  unfold periodUs Arduino.castLong PWM_BASE_FREQ
  rw [if_pos (by norm_num)]
  norm_num

theorem pulseWidthOf_eq (c : ℚ) :
    pulseWidthOf c = Arduino.castLong (c * 1000) + 1500 := by
  unfold pulseWidthOf Arduino.map SERVO_MIN SERVO_MAX
  norm_num
  omega

theorem dutyMap_eq (pw : ℤ) : dutyMap pw = (pw * 4095).tdiv 3003 := by
  unfold dutyMap Arduino.map
  rw [periodUs_eq]
  norm_num

theorem ledcAnalogWrite_4095 (v : ℕ) : ledcAnalogWrite v 4095 = min v 4095 := by
  unfold ledcAnalogWrite
  norm_num

theorem dutyOut_eval (c : ℚ) (x : ℤ) (hc : c * 1000 = (x : ℚ)) :
    dutyOut c = min ((((x + 1500) * 4095).tdiv 3003 % 65536).toNat) 4095 := by
  unfold dutyOut dutyCycleOf Arduino.toUInt16
  rw [ledcAnalogWrite_4095, pulseWidthOf_eq, hc, castLong_intCast, dutyMap_eq]

theorem toUInt16_of_lt {z : ℤ} (h0 : 0 ≤ z) (h1 : z < 65536) :
    Arduino.toUInt16 z = z.toNat := by
  unfold Arduino.toUInt16
  rw [Int.emod_eq_of_lt h0 h1]

theorem dutyMap_nonneg {pw : ℤ} (h : 0 ≤ pw) : 0 ≤ dutyMap pw := by
  rw [dutyMap_eq]
  exact Int.tdiv_nonneg (by positivity) (by norm_num)

theorem dutyMap_mono {a b : ℤ} (ha : 0 ≤ a) (hab : a ≤ b) :
    dutyMap a ≤ dutyMap b := by
  rw [dutyMap_eq, dutyMap_eq,
    Int.tdiv_eq_ediv (by positivity) (by norm_num),
    Int.tdiv_eq_ediv (by nlinarith) (by norm_num)]
  exact Int.ediv_le_ediv (by norm_num) (by nlinarith)

theorem castLong_bound {c : ℚ} (h1 : -1 ≤ c) (h2 : c ≤ 1) :
    -1000 ≤ Arduino.castLong (c * 1000) ∧ Arduino.castLong (c * 1000) ≤ 1000 := by
  constructor
  · have h := castLong_mono (show ((-1000 : ℤ) : ℚ) ≤ c * 1000 by push_cast; linarith)
    rwa [castLong_intCast] at h
  · have h := castLong_mono (show c * 1000 ≤ ((1000 : ℤ) : ℚ) by push_cast; linarith)
    rwa [castLong_intCast] at h

theorem pulseWidthOf_bound {c : ℚ} (h1 : -1 ≤ c) (h2 : c ≤ 1) :
    500 ≤ pulseWidthOf c ∧ pulseWidthOf c ≤ 2500 := by
  obtain ⟨hl, hr⟩ := castLong_bound h1 h2
  rw [pulseWidthOf_eq]
  omega

theorem dutyMap_bound {pw : ℤ} (h1 : 500 ≤ pw) (h2 : pw ≤ 2500) :
    681 ≤ dutyMap pw ∧ dutyMap pw ≤ 3409 := by
  constructor
  · have h := dutyMap_mono (show (0 : ℤ) ≤ 500 by norm_num) h1
    rwa [show dutyMap 500 = 681 by rw [dutyMap_eq]; decide] at h
  · have h := dutyMap_mono (by omega : (0 : ℤ) ≤ pw) h2
    rwa [show dutyMap 2500 = 3409 by rw [dutyMap_eq]; decide] at h

theorem dutyOut_of_norm {c : ℚ} (h1 : -1 ≤ c) (h2 : c ≤ 1) :
    dutyOut c = (dutyMap (pulseWidthOf c)).toNat ∧
      681 ≤ dutyOut c ∧ dutyOut c ≤ 3409 := by
  obtain ⟨hp1, hp2⟩ := pulseWidthOf_bound h1 h2
  obtain ⟨hd1, hd2⟩ := dutyMap_bound hp1 hp2
  have heq : dutyOut c = (dutyMap (pulseWidthOf c)).toNat := by
    unfold dutyOut dutyCycleOf
    rw [ledcAnalogWrite_4095, toUInt16_of_lt (by omega) (by omega)]
    exact min_eq_left (by omega)
  exact ⟨heq, by omega⟩

theorem maxValue_pos (l r : ℚ) : 0 < maxValue l r :=
  lt_of_lt_of_le one_pos (le_max_right _ _)

theorem abs_le_maxValue_left (l r : ℚ) : |l| ≤ maxValue l r :=
  le_trans (le_max_left _ _) (le_max_left _ _)

theorem abs_le_maxValue_right (l r : ℚ) : |r| ≤ maxValue l r :=
  le_trans (le_max_right _ _) (le_max_left _ _)

theorem abs_div_maxValue_left (l r : ℚ) : |l / maxValue l r| ≤ 1 := by
  rw [abs_div, abs_of_pos (maxValue_pos l r)]
  exact (div_le_one (maxValue_pos l r)).mpr (abs_le_maxValue_left l r)

theorem abs_div_maxValue_right (l r : ℚ) : |r / maxValue l r| ≤ 1 := by
  rw [abs_div, abs_of_pos (maxValue_pos l r)]
  exact (div_le_one (maxValue_pos l r)).mpr (abs_le_maxValue_right l r)

theorem maxValue_comm (l r : ℚ) : maxValue l r = maxValue r l := by
  unfold maxValue
  rw [max_comm |l| |r|]

theorem maxValue_eq_one {l r : ℚ} (hl : |l| ≤ 1) (hr : |r| ≤ 1) :
    maxValue l r = 1 :=
  max_eq_right (max_le hl hr)

/-- Claim C2: the normalization divisor is
`maxValue = max(max(|forward+steering|, |forward-steering|), 1)`; dividing
both wheel commands by it leaves each normalized command with absolute value
at most 1; whenever `forward ≠ steering` the ratio of the normalized left to
the normalized right command equals `(forward+steering)/(forward-steering)`
exactly; and wheel commands already within `±1` pass through undistorted. -/
theorem update_normalization (f s : ℚ) (hfs : f ≠ s) :
    |(f + s) / maxValue (f + s) (f - s)| ≤ 1 ∧
    |(f - s) / maxValue (f + s) (f - s)| ≤ 1 ∧
    ((f + s) / maxValue (f + s) (f - s)) / ((f - s) / maxValue (f + s) (f - s))
      = (f + s) / (f - s) ∧
    (|f + s| ≤ 1 → |f - s| ≤ 1 →
      (f + s) / maxValue (f + s) (f - s) = f + s ∧
      (f - s) / maxValue (f + s) (f - s) = f - s) := by
  refine ⟨abs_div_maxValue_left _ _, abs_div_maxValue_right _ _, ?_, ?_⟩
  · have hr : f - s ≠ 0 := sub_ne_zero.mpr hfs
    have hm : maxValue (f + s) (f - s) ≠ 0 := ne_of_gt (maxValue_pos _ _)
    field_simp
  · intro hl hr
    rw [maxValue_eq_one hl hr, div_one, div_one]
    exact ⟨rfl, rfl⟩

theorem update_normalization_witness :
    ((1 : ℚ) ≠ 0) ∧
    (|((1 : ℚ) + 0) / maxValue (1 + 0) (1 - 0)| ≤ 1 ∧
      |((1 : ℚ) - 0) / maxValue (1 + 0) (1 - 0)| ≤ 1 ∧
      (((1 : ℚ) + 0) / maxValue (1 + 0) (1 - 0)) /
          (((1 : ℚ) - 0) / maxValue (1 + 0) (1 - 0)) = (1 + 0) / (1 - 0) ∧
      (|(1 : ℚ) + 0| ≤ 1 → |(1 : ℚ) - 0| ≤ 1 →
        ((1 : ℚ) + 0) / maxValue (1 + 0) (1 - 0) = 1 + 0 ∧
        ((1 : ℚ) - 0) / maxValue (1 + 0) (1 - 0) = 1 - 0)) :=
  ⟨by norm_num, update_normalization 1 0 (by norm_num)⟩

/-- Claim C3: `updateRightLeft(left, right)` applies no normalization: it
maps its two arguments directly through the pulse-width and duty-cycle
pipeline for the two drive channels only (the winch channel receives no
write), and `updateRightLeft(2.0, r)` writes the clamped/mapped value of the
raw command 2.0 (duty 4095), not the value 3409 that a rescaled command of
1.0 would give. -/
theorem updateRightLeft_direct (mc : MotorControl) (l r : ℚ) :
    updateRightLeft mc l r =
      [ (Arduino.toUInt8 mc.PWM_LEFT_CHANNEL, dutyOut l),
        (Arduino.toUInt8 mc.PWM_RIGHT_CHANNEL, dutyOut r) ] ∧
    dutyOut 2 = 4095 ∧ dutyOut 1 = 3409 ∧ dutyOut 2 ≠ dutyOut 1 := by
  have h2 : dutyOut 2 = 4095 := by
    rw [dutyOut_eval 2 2000 (by norm_num)]
    decide
  have h1 : dutyOut 1 = 3409 := by
    rw [dutyOut_eval 1 1000 (by norm_num)]
    decide
  exact ⟨rfl, h2, h1, by omega⟩

/-- Claim C4: `ledcAnalogWrite(channel, value, valueMax)` computes
`duty = floor(4095 / valueMax) * min(value, valueMax)`, and for every value
and every `valueMax ≥ 1` that duty is at most 4095. -/
theorem ledcAnalogWrite_bounded (value valueMax : ℕ) (h : 1 ≤ valueMax) :
    ledcAnalogWrite value valueMax = 4095 / valueMax * min value valueMax ∧
    ledcAnalogWrite value valueMax ≤ 4095 := by
  refine ⟨rfl, ?_⟩
  have hle : 4095 / valueMax * min value valueMax ≤ 4095 / valueMax * valueMax :=
    Nat.mul_le_mul_left _ (min_le_right _ _)
  exact le_trans hle (Nat.div_mul_le_self _ _)

theorem ledcAnalogWrite_bounded_witness :
    1 ≤ 7 ∧
    (ledcAnalogWrite 123456 7 = 4095 / 7 * min 123456 7 ∧
      ledcAnalogWrite 123456 7 ≤ 4095) :=
  ⟨by norm_num, ledcAnalogWrite_bounded 123456 7 (by norm_num)⟩

/-- Claim C5: the winch command does not influence the drive outputs: for any
two winch commands `w1 ≠ w2`, `update(f, s, w1)` and `update(f, s, w2)` write
identical left and right duty cycles, and the winch duty is `dutyOut w1`, the
raw pipeline value of the winch command (never divided by the normalization
scale, independent of the drive commands). -/
theorem update_winch_independence (mc : MotorControl) (f s w1 w2 : ℚ)
    (hw : w1 ≠ w2) :
    List.take 2 (update mc f s w1) = List.take 2 (update mc f s w2) ∧
    writtenDuty (update mc f s w1) 2 = some (dutyOut w1) ∧
    (∀ g t : ℚ, writtenDuty (update mc g t w1) 2 = some (dutyOut w1)) :=
  ⟨rfl, rfl, fun _ _ => rfl⟩

theorem update_winch_independence_witness :
    ((0 : ℚ) ≠ 1) ∧
    (List.take 2 (update (construct 0 1 2 3 4) 0 0 0) =
        List.take 2 (update (construct 0 1 2 3 4) 0 0 1) ∧
      writtenDuty (update (construct 0 1 2 3 4) 0 0 0) 2 = some (dutyOut 0) ∧
      (∀ g t : ℚ, writtenDuty (update (construct 0 1 2 3 4) g t 0) 2 =
        some (dutyOut 0))) :=
  ⟨by norm_num, update_winch_independence (construct 0 1 2 3 4) 0 0 0 1 (by norm_num)⟩

/-- Claim C9: `update(0, 0, 0)` writes to both drive channels exactly the
duty obtained by mapping pulse width 1500 through the duty pipeline (the
neutral duty, 2045), and the winch channel receives that same neutral
duty. -/
theorem update_neutral (mc : MotorControl) :
    update mc 0 0 0 =
      [ (Arduino.toUInt8 mc.PWM_LEFT_CHANNEL, ledcAnalogWrite (dutyCycleOf 1500) 4095),
        (Arduino.toUInt8 mc.PWM_RIGHT_CHANNEL, ledcAnalogWrite (dutyCycleOf 1500) 4095),
        (Arduino.toUInt8 mc.WINCH_CHANNEL, ledcAnalogWrite (dutyCycleOf 1500) 4095) ] ∧
    ledcAnalogWrite (dutyCycleOf 1500) 4095 = 2045 := by
  have hpw : pulseWidthOf 0 = 1500 := by
    rw [pulseWidthOf_eq, show ((0 : ℚ) * 1000) = ((0 : ℤ) : ℚ) by norm_num,
      castLong_intCast]
    decide
  have hd : dutyOut 0 = ledcAnalogWrite (dutyCycleOf 1500) 4095 := by
    unfold dutyOut
    rw [hpw]
  have hval : ledcAnalogWrite (dutyCycleOf 1500) 4095 = 2045 := by
    unfold dutyCycleOf Arduino.toUInt16
    rw [ledcAnalogWrite_4095, dutyMap_eq]
    decide
  have hc1 : ((0 : ℚ) + 0) / maxValue (0 + 0) (0 - 0) = 0 := by
    norm_num [maxValue]
  have hc2 : ((0 : ℚ) - 0) / maxValue (0 + 0) (0 - 0) = 0 := by
    norm_num [maxValue]
  refine ⟨?_, hval⟩
  simp only [update, hc1, hc2, hd]

/-- Claim C10: the constructor stores `leftChannelFront` as the left drive
channel and `rightChannelBack` as the right drive channel; the
`rightChannelFront` and `leftChannelBack` arguments are ignored entirely, so
two constructions differing only in those arguments behave identically under
`update` and `updateRightLeft`. -/
theorem construct_channels (lcf rcf lcb rcb wc rcf2 lcb2 : ℤ) :
    construct lcf rcf lcb rcb wc = construct lcf rcf2 lcb2 rcb wc ∧
    (construct lcf rcf lcb rcb wc).PWM_LEFT_CHANNEL = lcf ∧
    (construct lcf rcf lcb rcb wc).PWM_RIGHT_CHANNEL = rcb ∧
    (construct lcf rcf lcb rcb wc).WINCH_CHANNEL = wc ∧
    (∀ f s w : ℚ, update (construct lcf rcf lcb rcb wc) f s w =
      update (construct lcf rcf2 lcb2 rcb wc) f s w) ∧
    (∀ l r : ℚ, updateRightLeft (construct lcf rcf lcb rcb wc) l r =
      updateRightLeft (construct lcf rcf2 lcb2 rcb wc) l r) :=
  ⟨rfl, rfl, rfl, rfl, fun _ _ _ => rfl, fun _ _ => rfl⟩

/-- Claim C6: mix symmetry: for every forward `f`, steering `s` and winch `w`
the left duty of `update(f, s, w)` equals the right duty of
`update(f, -s, w)`; `update(0, 1, 0)` gives left duty (3409) strictly above
right duty (681), and `update(0, -1, 0)` the reverse. -/
theorem update_mix_symmetry (mc : MotorControl) (f s w : ℚ) :
    writtenDuty (update mc f s w) 0 = writtenDuty (update mc f (-s) w) 1 ∧
    (∃ dl dr : ℕ, writtenDuty (update mc 0 1 0) 0 = some dl ∧
      writtenDuty (update mc 0 1 0) 1 = some dr ∧ dr < dl) ∧
    (∃ dl dr : ℕ, writtenDuty (update mc 0 (-1) 0) 0 = some dl ∧
      writtenDuty (update mc 0 (-1) 0) 1 = some dr ∧ dl < dr) := by
  have harg : (f + s) / maxValue (f + s) (f - s)
      = (f - -s) / maxValue (f + -s) (f - -s) := by
    rw [show f - -s = f + s by ring, show f + -s = f - s by ring, maxValue_comm]
  have hpos : ((0 : ℚ) + 1) / maxValue (0 + 1) (0 - 1) = 1 := by
    norm_num [maxValue]
  have hneg : ((0 : ℚ) + 1) / maxValue (0 + 1) (0 - 1) = 1 := hpos
  have hposr : ((0 : ℚ) - 1) / maxValue (0 + 1) (0 - 1) = -1 := by
    norm_num [maxValue]
  have hnl : ((0 : ℚ) + -1) / maxValue (0 + -1) (0 - -1) = -1 := by
    norm_num [maxValue]
  have hnr : ((0 : ℚ) - -1) / maxValue (0 + -1) (0 - -1) = 1 := by
    norm_num [maxValue]
  have hd1 : dutyOut 1 = 3409 := by
    rw [dutyOut_eval 1 1000 (by norm_num)]
    decide
  have hdm1 : dutyOut (-1) = 681 := by
    rw [dutyOut_eval (-1) (-1000) (by norm_num)]
    decide
  refine ⟨?_, ⟨3409, 681, ?_, ?_, by omega⟩, ⟨681, 3409, ?_, ?_, by omega⟩⟩
  · simp only [update, writtenDuty, List.getElem?_cons_zero,
      List.getElem?_cons_succ, Option.map_some', harg]
  · simp only [update, writtenDuty, List.getElem?_cons_zero, Option.map_some',
      hpos, hd1]
  · simp only [update, writtenDuty, List.getElem?_cons_zero,
      List.getElem?_cons_succ, Option.map_some', hposr, hdm1]
  · simp only [update, writtenDuty, List.getElem?_cons_zero, Option.map_some',
      hnl, hdm1]
  · simp only [update, writtenDuty, List.getElem?_cons_zero,
      List.getElem?_cons_succ, Option.map_some', hnr, hd1]

/-- Claim C7 (amended): both linear mapping steps use C `long` division,
which truncates toward zero; truncation agrees with floor on every
nonnegative pulse width (in particular on the whole normalized drive path),
so there the computed duty cycle equals the floor of the exact linear image,
and the command-to-pulse-width step is exactly linear in the truncated
argument. -/
theorem dutyMap_floor_semantics (pw : ℤ) (h : 0 ≤ pw) :
    dutyMap pw = ⌊(pw : ℚ) * 4095 / 3003⌋ ∧
    (∀ c : ℚ, pulseWidthOf c = Arduino.castLong (c * 1000) + 1500) := by
  constructor
  · rw [show ((pw : ℚ) * 4095 / 3003) = (((pw * 4095 : ℤ) : ℚ) / ((3003 : ℕ) : ℚ))
        by push_cast; ring,
      Rat.floor_intCast_div_natCast, dutyMap_eq,
      Int.tdiv_eq_ediv (by positivity) (by norm_num)]
    norm_num
  · exact pulseWidthOf_eq

theorem dutyMap_floor_semantics_witness :
    (0 : ℤ) ≤ 2500 ∧
    (dutyMap 2500 = ⌊((2500 : ℤ) : ℚ) * 4095 / 3003⌋ ∧
      (∀ c : ℚ, pulseWidthOf c = Arduino.castLong (c * 1000) + 1500)) :=
  ⟨by norm_num, dutyMap_floor_semantics 2500 (by norm_num)⟩

theorem dutyMap_floor_semantics_cx :
    pulseWidthOf (-2) = -500 ∧
    dutyMap (-500) = -681 ∧
    ⌊((-500 : ℤ) : ℚ) * 4095 / 3003⌋ = -682 ∧
    dutyMap (-500) ≠ ⌊((-500 : ℤ) : ℚ) * 4095 / 3003⌋ := by
  have hpw : pulseWidthOf (-2 : ℚ) = -500 := by
    rw [pulseWidthOf_eq, show ((-2 : ℚ) * 1000) = ((-2000 : ℤ) : ℚ) by norm_num,
      castLong_intCast]
    decide
  have hlin : dutyMap (-500 : ℤ) = -681 := by
    rw [dutyMap_eq]
    decide
  have hfl : ⌊((-500 : ℤ) : ℚ) * 4095 / 3003⌋ = -682 := by
    norm_num
  refine ⟨hpw, hlin, hfl, ?_⟩
  rw [hlin, hfl]
  decide

/-- Claim C8: duty cycle is a non-decreasing function of the normalized
command over `[-1, 1]`: for all commands `c1 ≤ c2` in that range, the duty
produced by the pulse-width and duty-cycle pipeline at `c1` is at most the
one produced at `c2`. -/
theorem dutyOut_mono (c1 c2 : ℚ) (h1 : -1 ≤ c1) (h12 : c1 ≤ c2) (h2 : c2 ≤ 1) :
    dutyOut c1 ≤ dutyOut c2 := by
  obtain ⟨e1, _, _⟩ := dutyOut_of_norm h1 (le_trans h12 h2)
  obtain ⟨e2, _, _⟩ := dutyOut_of_norm (le_trans h1 h12) h2
  rw [e1, e2]
  apply Int.toNat_le_toNat
  apply dutyMap_mono
  · exact le_trans (by norm_num) (pulseWidthOf_bound h1 (le_trans h12 h2)).1
  · rw [pulseWidthOf_eq, pulseWidthOf_eq]
    have hm := castLong_mono (show c1 * 1000 ≤ c2 * 1000 by nlinarith)
    omega

theorem dutyOut_mono_witness :
    (-1 ≤ (-1 : ℚ) ∧ (-1 : ℚ) ≤ 1 ∧ (1 : ℚ) ≤ 1) ∧ dutyOut (-1) ≤ dutyOut 1 :=
  ⟨⟨by norm_num, by norm_num, by norm_num⟩,
    dutyOut_mono (-1) 1 (by norm_num) (by norm_num) (by norm_num)⟩

/-- Claim C1 (amended): the left and right duty cycles written by `update`
always equal the linearly mapped pulse-width value clamped into `[0, 4095]`
(their linear value in fact lies in `[681, 3409]`), and every written duty,
winch included, is at most 4095; the winch duty equals the clamped linear
value whenever that linear value lies in `[0, 65535]`, but a linear value
outside that range (e.g. from a winch command at or below about -1.5) wraps
modulo `2 ^ 16` in the `uint16_t` narrowing before the upper clamp, instead
of being clamped into `[0, 4095]`. -/
theorem update_duty_clamp (mc : MotorControl) (f s w : ℚ)
    (h0 : 0 ≤ dutyMap (pulseWidthOf w)) (h1 : dutyMap (pulseWidthOf w) ≤ 65535) :
    writtenDuty (update mc f s w) 0 =
      some (specClamp (dutyMap (pulseWidthOf ((f + s) / maxValue (f + s) (f - s))))) ∧
    writtenDuty (update mc f s w) 1 =
      some (specClamp (dutyMap (pulseWidthOf ((f - s) / maxValue (f + s) (f - s))))) ∧
    writtenDuty (update mc f s w) 2 = some (specClamp (dutyMap (pulseWidthOf w))) ∧
    (∀ c : ℚ, dutyOut c ≤ 4095) := by
  have hbound : ∀ c : ℚ, dutyOut c ≤ 4095 := by
    intro c
    unfold dutyOut
    rw [ledcAnalogWrite_4095]
    exact min_le_right _ _
  have hnorm : ∀ c : ℚ, -1 ≤ c → c ≤ 1 →
      dutyOut c = specClamp (dutyMap (pulseWidthOf c)) := by
    intro c hc1 hc2
    obtain ⟨heq, _, _⟩ := dutyOut_of_norm hc1 hc2
    obtain ⟨hp1, hp2⟩ := pulseWidthOf_bound hc1 hc2
    obtain ⟨hd1, hd2⟩ := dutyMap_bound hp1 hp2
    rw [heq]
    unfold specClamp
    omega
  have hwinch : dutyOut w = specClamp (dutyMap (pulseWidthOf w)) := by
    unfold dutyOut dutyCycleOf
    rw [ledcAnalogWrite_4095, toUInt16_of_lt h0 (by omega)]
    unfold specClamp
    omega
  have habs1 := abs_le.mp (abs_div_maxValue_left (f + s) (f - s))
  have habs2 := abs_le.mp (abs_div_maxValue_right (f + s) (f - s))
  refine ⟨?_, ?_, ?_, hbound⟩
  · simp only [update, writtenDuty, List.getElem?_cons_zero, Option.map_some']
    rw [hnorm _ habs1.1 habs1.2]
  · simp only [update, writtenDuty, List.getElem?_cons_zero,
      List.getElem?_cons_succ, Option.map_some']
    rw [hnorm _ habs2.1 habs2.2]
  · simp only [update, writtenDuty, List.getElem?_cons_zero,
      List.getElem?_cons_succ, Option.map_some']
    rw [hwinch]

theorem update_duty_clamp_witness :
    (0 ≤ dutyMap (pulseWidthOf 0) ∧ dutyMap (pulseWidthOf 0) ≤ 65535) ∧
    (writtenDuty (update (construct 0 1 2 3 4) 0 0 0) 0 =
        some (specClamp (dutyMap (pulseWidthOf ((0 + 0) / maxValue (0 + 0) (0 - 0))))) ∧
      writtenDuty (update (construct 0 1 2 3 4) 0 0 0) 1 =
        some (specClamp (dutyMap (pulseWidthOf ((0 - 0) / maxValue (0 + 0) (0 - 0))))) ∧
      writtenDuty (update (construct 0 1 2 3 4) 0 0 0) 2 =
        some (specClamp (dutyMap (pulseWidthOf 0))) ∧
      (∀ c : ℚ, dutyOut c ≤ 4095)) := by
  have hpw : pulseWidthOf (0 : ℚ) = 1500 := by
    rw [pulseWidthOf_eq, show ((0 : ℚ) * 1000) = ((0 : ℤ) : ℚ) by norm_num,
      castLong_intCast]
    decide
  have h0 : 0 ≤ dutyMap (pulseWidthOf (0 : ℚ)) := by
    rw [hpw, dutyMap_eq]
    decide
  have h1 : dutyMap (pulseWidthOf (0 : ℚ)) ≤ 65535 := by
    rw [hpw, dutyMap_eq]
    decide
  exact ⟨⟨h0, h1⟩, update_duty_clamp (construct 0 1 2 3 4) 0 0 0 h0 h1⟩

theorem update_duty_clamp_cx :
    writtenDuty (update (construct 0 1 2 3 4) 0 0 (-2)) 2 = some 4095 ∧
    specClamp (dutyMap (pulseWidthOf (-2))) = 0 ∧
    writtenDuty (update (construct 0 1 2 3 4) 0 0 (-2)) 2 ≠
      some (specClamp (dutyMap (pulseWidthOf (-2)))) := by
  have hpw : pulseWidthOf (-2 : ℚ) = -500 := by
    rw [pulseWidthOf_eq, show ((-2 : ℚ) * 1000) = ((-2000 : ℤ) : ℚ) by norm_num,
      castLong_intCast]
    decide
  have hclamp : specClamp (dutyMap (pulseWidthOf (-2 : ℚ))) = 0 := by
    rw [hpw, dutyMap_eq]
    decide
  have hwr : writtenDuty (update (construct 0 1 2 3 4) 0 0 (-2)) 2 =
      some (dutyOut (-2)) := rfl
  have hd : dutyOut (-2 : ℚ) = 4095 := by
    rw [dutyOut_eval (-2) (-2000) (by norm_num)]
    decide
  refine ⟨by rw [hwr, hd], hclamp, ?_⟩
  rw [hwr, hd, hclamp]
  decide

end MotorControl
